import Mathlib

/-!
Verification of the "Partenaire en Parole" French-tutor application.

The development shallowly embeds the application's data model and the
operations of its services (`src/services/gemini.ts`, the `SetupForm`,
`LiveInterface` and `ChatInterface` components) as executable Lean
definitions, and proves the specified properties about them.
-/

set_option maxRecDepth 4000

namespace Partenaire

/-! ## Data model (src/types.ts) -/

/-- `ProficiencyLevel` enum from src/types.ts: A1 = "A1", A2 = "A2". -/
inductive ProficiencyLevel where
  | A1
  | A2
  deriving DecidableEq, Repr

/-- The string value of a `ProficiencyLevel` enum member. -/
def ProficiencyLevel.str : ProficiencyLevel → String
  | .A1 => "A1"
  | .A2 => "A2"

/-- `InteractionMode` enum from src/types.ts: TEXT = "Text", SPEECH = "Speech". -/
inductive InteractionMode where
  | TEXT
  | SPEECH
  deriving DecidableEq, Repr

/-- `AppConfig` interface from src/types.ts. -/
structure AppConfig where
  level : ProficiencyLevel
  words : List String
  topic : String
  mode : InteractionMode
  deriving DecidableEq, Repr

/-! ## String helpers

JavaScript semantics used by the sources: `s || fallback` yields the
fallback exactly when `s` is the empty string (the only falsy string),
and `String.prototype.trim` strips leading and trailing whitespace. -/

/-- Whitespace as recognised by JavaScript `trim` (the ASCII subset,
which covers every character the application can feed it). -/
def jsWhite (c : Char) : Bool :=
  c == ' ' || c == '\t' || c == '\n' || c == '\r' || c == '\x0b' || c == '\x0c'

/-- JavaScript `String.prototype.trim` on the character list. -/
def trimChars (l : List Char) : List Char :=
  ((l.dropWhile jsWhite).reverse.dropWhile jsWhite).reverse

/-- JavaScript `String.prototype.trim`. -/
def jsTrim (s : String) : String :=
  ⟨trimChars s.data⟩

/-- JavaScript `a || b` on strings: `b` exactly when `a` is empty. -/
def jsOrElse (a b : String) : String :=
  if a = "" then b else a

/-- JavaScript `String.prototype.split(',')` on the character list:
`"".split(',')` is `[""]`, and every comma opens a new group. -/
def splitCommaChars : List Char → List (List Char)
  | [] => [[]]
  | c :: cs =>
    if c = ',' then
      [] :: splitCommaChars cs
    else
      match splitCommaChars cs with
      | [] => [[c]]
      | g :: gs => (c :: g) :: gs

/-- JavaScript `s.split(',')`. -/
def jsSplitComma (s : String) : List String :=
  (splitCommaChars s.data).map (fun l => ⟨l⟩)

/-- Decidable check that `needle` occurs at the start of `hay`. -/
def charsPre : List Char → List Char → Bool
  | [], _ => true
  | _ :: _, [] => false
  | a :: as, b :: bs => a == b && charsPre as bs

/-- Decidable substring check on character lists. -/
def charsSub (needle : List Char) : List Char → Bool
  | [] => needle.isEmpty
  | b :: bs => charsPre needle (b :: bs) || charsSub needle bs

/-- `needle` occurs as a contiguous substring of `hay`. -/
def containsSub (needle hay : String) : Bool :=
  charsSub needle.data hay.data

/-! ## System instruction template (src/services/gemini.ts, lines 7-21)

The template literal interpolates `config.level`, `config.topic ||
'General Conversation'` and `config.words.join(', ')`. -/

/-- `SYSTEM_INSTRUCTION_TEMPLATE` from src/services/gemini.ts. -/
def SYSTEM_INSTRUCTION_TEMPLATE (config : AppConfig) : String :=
  "\nRole: French Vocabulary Conversation Partner.\n" ++
  "Objective: Act as an encouraging French tutor focused on " ++
    config.level.str ++ " proficiency.\n" ++
  "Context: " ++ jsOrElse config.topic "General Conversation" ++ ".\n" ++
  "Target Words: " ++ String.intercalate ", " config.words ++ ".\n" ++
  "\nRules:\n" ++
  "1. Respond entirely in French.\n" ++
  "2. Integrate target words naturally over time.\n" ++
  "3. If using a word beyond " ++ config.level.str ++
    ", provide inline translation: word [meaning].\n" ++
  "4. Keep responses short (1-3 sentences).\n" ++
  "5. Do not correct mistakes immediately; model correct usage in your response.\n" ++
  "6. Ask 1-2 questions at a time to keep conversation flowing.\n" ++
  "7. If the user wants to stop, provide a short English summary of their performance.\n"

/-! ## SetupForm.handleSubmit (src/unnamed/part_000, SetupForm component)

`handleSubmit` splits the vocabulary input on commas, trims each entry,
drops empty entries, refuses an empty list, and builds the `AppConfig`
with `topic: topic || 'Daily Life'`. -/

/-- `SetupForm.handleSubmit`: `none` models the early return that sets the
form error; `some config` models the `onStart(config)` call. -/
def handleSubmit (level : ProficiencyLevel) (wordsInput topic : String)
    (mode : InteractionMode) : Option AppConfig :=
  let words := ((jsSplitComma wordsInput).map jsTrim).filter (fun w => w.length > 0)
  if words.length < 1 then
    none
  else
    some { level := level, words := words, topic := jsOrElse topic "Daily Life", mode := mode }

/-! ## Playback scheduling (GeminiLiveService.playAudioResponse)

`playAudioResponse` (src/services/gemini.ts, lines 151-174) runs, per
inbound chunk:

    this.nextStartTime = Math.max(this.nextStartTime, currentTime);
    source.start(this.nextStartTime);
    this.nextStartTime += audioBuffer.duration;

A chunk is modelled by the pair `(t, d)`: the output context's current
time `t` at the moment the chunk is scheduled, and the decoded buffer's
duration `d`. -/

/-- One `playAudioResponse` scheduling step: given the cursor `cur` and a
chunk arriving at output-clock time `t` with duration `d`, return the
chosen start time and the updated `nextStartTime` cursor. -/
def scheduleStep (cur t d : ℚ) : ℚ × ℚ :=
  let s := max cur t
  (s, s + d)

/-- Run `playAudioResponse` over a chunk sequence, recording for each
chunk the triple (arrival time, start time, cursor after scheduling). -/
def scheduleTrace (cur : ℚ) : List (ℚ × ℚ) → List (ℚ × ℚ × ℚ)
  | [] => []
  | (t, d) :: rest =>
    let s := max cur t
    (t, s, s + d) :: scheduleTrace (s + d) rest

/-- The start times chosen for a chunk sequence. -/
def scheduleStarts (cur : ℚ) (chunks : List (ℚ × ℚ)) : List ℚ :=
  (scheduleTrace cur chunks).map (fun e => e.2.1)

/-! ## GeminiLiveService state (src/services/gemini.ts, lines 55-194)

Handles held by the service are modelled by small inert values: an audio
context or a session promise by an identifier, a media-stream track by
its `stopped` flag, an input source node or script processor by its
`connected` flag, and a scheduled `AudioBufferSourceNode` by an
identifier in the `sources` set (the source keeps `Set` insertion order,
so a list without duplicates models it; only emptiness matters here). -/

/-- A `MediaStreamTrack`: `track.stop()` sets the flag. -/
structure Track where
  stopped : Bool
  deriving DecidableEq, Repr

/-- An audio graph node (`MediaStreamAudioSourceNode` or
`ScriptProcessorNode`): `node.disconnect()` clears the flag. -/
structure AudioNodeHandle where
  connected : Bool
  deriving DecidableEq, Repr

/-- The mutable fields of `GeminiLiveService`. -/
structure GeminiLiveState where
  sessionPromise : Option Nat
  inputAudioContext : Option Nat
  outputAudioContext : Option Nat
  nextStartTime : ℚ
  sources : List Nat
  stream : Option (List Track)
  processor : Option AudioNodeHandle
  inputSource : Option AudioNodeHandle
  deriving DecidableEq, Repr

/-- Field initialisers of `GeminiLiveService` (a never-connected
instance). -/
def GeminiLiveState.initial : GeminiLiveState :=
  { sessionPromise := none
    inputAudioContext := none
    outputAudioContext := none
    nextStartTime := 0
    sources := []
    stream := none
    processor := none
    inputSource := none }

/-- `GeminiLiveService.disconnect` (src/services/gemini.ts, lines
176-193): request session closure, stop every scheduled source and clear
the set, stop the stream's tracks, disconnect the input source and the
processor, close both contexts, then null out the session promise and
the two contexts. The stream, input source and processor fields are left
holding their handles. -/
def GeminiLiveState.disconnect (s : GeminiLiveState) : GeminiLiveState :=
  { s with
    sources := []
    stream := s.stream.map (fun ts => ts.map (fun t => { t with stopped := true }))
    inputSource := s.inputSource.map (fun n => { n with connected := false })
    processor := s.processor.map (fun n => { n with connected := false })
    inputAudioContext := none
    outputAudioContext := none
    sessionPromise := none }

/-! ### Teardown trace (for the best-effort teardown property)

The teardown steps named by the spec, in the order the `disconnect` body
performs them. Each step that can fail does so asynchronously in the
source — the session close runs inside `.then(...)` and
`AudioContext.close()` returns a promise — so its outcome is an oracle
the control flow never consults. -/

/-- The four teardown duties of `disconnect`. -/
inductive TeardownStep where
  | closeSession
  | stopPlayback
  | releaseCapture
  | releaseContexts
  deriving DecidableEq, Repr

/-- Outcomes of the fallible (asynchronous, best-effort) teardown
operations. -/
structure TeardownOutcome where
  sessionCloseOk : Bool
  inputCtxCloseOk : Bool
  outputCtxCloseOk : Bool
  deriving DecidableEq, Repr

/-- The steps `disconnect` attempts on state `s`, paired with the
outcome each one would report. Mirrors the source body: the session
close request is guarded by `if (this.sessionPromise)`, track stopping
by `this.stream?.`, the context closes by `?.`; stopping the scheduled
sources and clearing the set is unconditional. -/
def disconnectTrace (s : GeminiLiveState) (o : TeardownOutcome) :
    List (TeardownStep × Bool) :=
  (if s.sessionPromise.isSome then [(TeardownStep.closeSession, o.sessionCloseOk)] else []) ++
  [(TeardownStep.stopPlayback, true)] ++
  (if s.stream.isSome then [(TeardownStep.releaseCapture, true)] else []) ++
  (if s.inputAudioContext.isSome then [(TeardownStep.releaseContexts, o.inputCtxCloseOk)]
   else []) ++
  (if s.outputAudioContext.isSome then [(TeardownStep.releaseContexts, o.outputCtxCloseOk)]
   else [])

/-! ## connect and LiveInterface.startSession

`GeminiLiveService.connect` (src/services/gemini.ts, lines 73-118)
creates both audio contexts, awaits `getUserMedia`, then assigns
`this.sessionPromise = this.ai.live.connect({...})` WITHOUT awaiting it
and returns. `LiveInterface.startSession` (src/unnamed/part_000) awaits
`connect`; on rejection it sets the generic error message and
`isActive = false`; on resolution it sets `isActive = true`. If the
remote handshake later fails, the `onerror` callback runs
`onDisconnect`, which sets `isActive = false` (the error message is
untouched and the service still holds its session promise).

The two external outcomes are oracles: `micOk` (did `getUserMedia`
resolve) and `handshakeOk` (did the live connection succeed). The
linearisation below follows the single-threaded event order of the
source: the `connect` call runs to completion or rejection, then
`startSession` resumes, then any deferred `onerror` callback fires. -/

/-- The `LiveInterface` component state relevant to a session start. -/
structure LiveUIState where
  isActive : Bool
  error : String
  service : GeminiLiveState
  deriving DecidableEq, Repr

/-- The generic failure message `startSession` surfaces. -/
def genericConnectError : String := "Could not access microphone or connect to API."

/-- `GeminiLiveService.connect` on a fresh instance: `none` models a
rejection propagated to the awaiting caller, `some` the resolved call's
resulting service state. Context creation always succeeds; a
`getUserMedia` failure rejects before `stream` or `sessionPromise` is
assigned; otherwise the session promise is assigned unconditionally
(its own later rejection does not reject `connect`). -/
def connectRun (micOk : Bool) : Option GeminiLiveState :=
  let s0 := { GeminiLiveState.initial with
                inputAudioContext := some 0, outputAudioContext := some 1 }
  if micOk then
    some { s0 with
             stream := some [{ stopped := false }]
             sessionPromise := some 0 }
  else
    none

/-- `LiveInterface.startSession` followed by the deferred `onerror`
callback when the handshake fails. Returns the component state once the
dust settles. -/
def startSession (micOk handshakeOk : Bool) : LiveUIState :=
  match connectRun micOk with
  | none =>
      -- catch block: setError(generic); setIsActive(false)
      { isActive := false
        error := genericConnectError
        service := { GeminiLiveState.initial with
                       inputAudioContext := some 0, outputAudioContext := some 1 } }
  | some svc =>
      let afterAwait : LiveUIState := { isActive := true, error := "", service := svc }
      if handshakeOk then
        afterAwait
      else
        -- onerror → onDisconnect → setIsActive(false); nothing else runs
        { afterAwait with isActive := false }

/-! ## PCM encode/decode (src/utils/audioUtils)

The implementations of `createPcmBlob` and `decodeAudioData` live in
`src/utils/audioUtils`, which is not among the provided source files;
only their call sites in src/services/gemini.ts are. They are therefore
modelled from the spec. Samples are rationals; a byte is a `Nat` below
256. -/

/-- Clamp a sample to [-1, 1]. -/
def clampSample (x : ℚ) : ℚ := min 1 (max (-1) x)

/-- Modelled from the spec: the per-sample core of `createPcmBlob`
(absent src/utils/audioUtils) — "each sample is clamped to [-1,1],
scaled to the 16-bit signed integer range": clamp, scale by 2^15, and
keep the result inside the representable range [-32768, 32767]. -/
def encodeSample (x : ℚ) : ℤ :=
  min 32767 (max (-32768) ⌊clampSample x * 32768⌋)

/-- The two's-complement little-endian byte pair of a 16-bit value. -/
def int16ToBytes (i : ℤ) : Nat × Nat :=
  let u := (i % 65536).toNat
  (u % 256, u / 256)

/-- Modelled from the spec: `createPcmBlob`'s payload (absent
src/utils/audioUtils) — every sample encoded and "written
little-endian", flattened to a byte list. -/
def pcmEncodeBytes (xs : List ℚ) : List Nat :=
  xs.flatMap (fun x => let p := int16ToBytes (encodeSample x); [p.1, p.2])

/-- Reassemble a 16-bit signed value from a little-endian byte pair. -/
def bytesToInt16 (lo hi : Nat) : ℤ :=
  let u := lo + 256 * hi
  if u < 32768 then (u : ℤ) else (u : ℤ) - 65536

/-- Modelled from the spec: `decodeAudioData` (absent
src/utils/audioUtils) — "interprets rawBytes as 16-bit signed
little-endian PCM ... and produces a normalized floating-point
buffer": consecutive byte pairs become samples scaled back to
[-1, 1). A trailing odd byte has no complete sample and is dropped. -/
def pcmDecodeBytes : List Nat → List ℚ
  | lo :: hi :: rest => (bytesToInt16 lo hi : ℚ) / 32768 :: pcmDecodeBytes rest
  | _ => []

/-! ## Volume analyzer (processor.onaudioprocess, src/services/gemini.ts)

Per capture callback the source computes
`dataArray.reduce((a, b) => a + b) / dataArray.length` over the byte
frequency data and reports it through `onVolumeChange`. `reduce`
without an initial value throws on an empty array, so the result is
`Option`; the analyser's `frequencyBinCount` is 128, never zero. -/

/-- The volume reported by one `onaudioprocess` invocation for byte
frequency data `bins`. -/
def volumeOf (bins : List Nat) : Option ℚ :=
  match bins with
  | [] => none
  | b :: rest => some (((rest.foldl (· + ·) b : Nat) : ℚ) / (bins.length : ℚ))

/-! ## ChatInterface.handleSend (src/components/ChatInterface.tsx)

`handleSend` returns early when the trimmed input is empty, the chat
service is missing, or a send is in flight; otherwise it appends the
user message, clears the input, sets `isLoading`, awaits
`sendMessage`, appends the model reply when one arrives (a thrown send
is only logged), and finally clears `isLoading`. -/

/-- `ChatMessage` interface from src/types.ts; the role is `user` or
`model`. -/
inductive Role where
  | user
  | model
  deriving DecidableEq, Repr

/-- A chat transcript entry. -/
structure ChatMessage where
  role : Role
  text : String
  timestamp : Nat
  deriving DecidableEq, Repr

/-- The `ChatInterface` component state touched by `handleSend`;
`hasService` models `chatServiceRef.current !== null`. -/
structure ChatState where
  messages : List ChatMessage
  inputValue : String
  isLoading : Bool
  hasService : Bool
  deriving DecidableEq, Repr

/-- Outcome of the awaited `sendMessage` call: a reply text, a reply
the source treats as absent, or a thrown error. -/
inductive SendOutcome where
  | ok (response : String)
  | empty
  | err
  deriving DecidableEq, Repr

/-- `ChatInterface.handleSend`, with `now` the `Date.now()` reading and
`outcome` the oracle for the awaited `sendMessage`. -/
def handleSend (st : ChatState) (now : Nat) (outcome : SendOutcome) : ChatState :=
  if jsTrim st.inputValue = "" ∨ st.hasService = false ∨ st.isLoading = true then
    st
  else
    let userMsg : ChatMessage := { role := .user, text := st.inputValue, timestamp := now }
    let afterUser : ChatState :=
      { st with messages := st.messages ++ [userMsg], inputValue := "", isLoading := true }
    match outcome with
    | .ok r =>
        { afterUser with
            messages := afterUser.messages ++ [{ role := .model, text := r, timestamp := now }]
            isLoading := false }
    | .empty => { afterUser with isLoading := false }
    | .err => { afterUser with isLoading := false }

/-! ## Theorems -/

/-- The configuration of the spec's template scenario: level A1, words
"maison" and "chat", empty topic, speech mode. -/
def scenarioConfig : AppConfig :=
  { level := .A1, words := ["maison", "chat"], topic := "", mode := .SPEECH }

/-- C1 (counterexample): for the scenario config with an empty topic,
the instruction built by `SYSTEM_INSTRUCTION_TEMPLATE` does NOT contain
the substring "Daily Life" — the template's own fallback is "General
Conversation" — so the claimed conjunction fails. -/
theorem template_daily_life_counterexample :
    ¬ (containsSub "A1" (SYSTEM_INSTRUCTION_TEMPLATE scenarioConfig) = true ∧
       containsSub "maison" (SYSTEM_INSTRUCTION_TEMPLATE scenarioConfig) = true ∧
       containsSub "chat" (SYSTEM_INSTRUCTION_TEMPLATE scenarioConfig) = true ∧
       containsSub "Daily Life" (SYSTEM_INSTRUCTION_TEMPLATE scenarioConfig) = true) := by
  decide

/-- C1 (amended): for the scenario config with an empty topic, the
instruction built by `SYSTEM_INSTRUCTION_TEMPLATE` contains "A1",
"maison", "chat", and the template's literal fallback topic "General
Conversation". -/
theorem template_scenario_contains :
    containsSub "A1" (SYSTEM_INSTRUCTION_TEMPLATE scenarioConfig) = true ∧
    containsSub "maison" (SYSTEM_INSTRUCTION_TEMPLATE scenarioConfig) = true ∧
    containsSub "chat" (SYSTEM_INSTRUCTION_TEMPLATE scenarioConfig) = true ∧
    containsSub "General Conversation" (SYSTEM_INSTRUCTION_TEMPLATE scenarioConfig) = true := by
  decide

/-- C10: every `AppConfig` that `SetupForm.handleSubmit` hands to
`onStart` has a non-empty word list with no empty entries, and a
non-empty topic. -/
theorem handleSubmit_invariants (level : ProficiencyLevel) (wordsInput topic : String)
    (mode : InteractionMode) (cfg : AppConfig)
    (h : handleSubmit level wordsInput topic mode = some cfg) :
    cfg.words ≠ [] ∧ (∀ w ∈ cfg.words, w ≠ "") ∧ cfg.topic ≠ "" := by
  unfold handleSubmit at h
  set words := ((jsSplitComma wordsInput).map jsTrim).filter (fun w => w.length > 0) with hw
  by_cases hlen : words.length < 1
  · simp [hlen] at h
  · simp only [hlen, if_false] at h
    have hne : words ≠ [] := by
      intro hnil
      apply hlen
      rw [hnil]
      simp
    have hall : ∀ w ∈ words, w ≠ "" := by
      intro w hwmem hempty
      have hfil := List.of_mem_filter (hw ▸ hwmem)
      rw [hempty] at hfil
      simp at hfil
    have htopic : jsOrElse topic "Daily Life" ≠ "" := by
      unfold jsOrElse
      split
      · decide
      · assumption
    have hcfg : cfg =
        { level := level, words := words, topic := jsOrElse topic "Daily Life",
          mode := mode } := (Option.some_inj.mp h).symm
    subst hcfg
    exact ⟨hne, hall, htopic⟩

/-- A closed instance of `handleSubmit_invariants` at the concrete form
input "maison, chat" with a blank topic. -/
theorem handleSubmit_invariants_witness :
    (handleSubmit .A1 "maison, chat" "" .SPEECH =
      some { level := .A1, words := ["maison", "chat"], topic := "Daily Life",
             mode := .SPEECH }) ∧
    (({ level := .A1, words := ["maison", "chat"], topic := "Daily Life",
        mode := .SPEECH } : AppConfig).words ≠ [] ∧
     (∀ w ∈ ({ level := .A1, words := ["maison", "chat"], topic := "Daily Life",
               mode := .SPEECH } : AppConfig).words, w ≠ "") ∧
     ({ level := .A1, words := ["maison", "chat"], topic := "Daily Life",
        mode := .SPEECH } : AppConfig).topic ≠ "") :=
  ⟨by decide, handleSubmit_invariants .A1 "maison, chat" "" .SPEECH _ (by decide)⟩

/-- C3: `disconnect` is idempotent, is a no-op on a never-connected
instance, and always leaves the scheduled-playback set empty. Every
step of the source body is null-guarded (`if`, `?.`) or a no-throw
operation, so the embedding is total: no call signals an error. -/
theorem disconnect_idempotent_noop :
    (∀ s : GeminiLiveState, s.disconnect.disconnect = s.disconnect) ∧
    GeminiLiveState.initial.disconnect = GeminiLiveState.initial ∧
    (∀ s : GeminiLiveState, s.disconnect.sources = []) := by
  refine ⟨fun s => ?_, by decide, fun s => rfl⟩
  unfold GeminiLiveState.disconnect
  cases s.stream <;> cases s.processor <;> cases s.inputSource <;>
    simp [Option.map_map, List.map_map, Function.comp_def]

/-- C4 (counterexample): when the microphone is granted but the remote
handshake fails, `startSession` does not surface the generic error
(the message stays empty) and the service retains its session promise,
so the claimed conjunction fails. -/
theorem startSession_handshake_counterexample :
    ¬ ((startSession true false).error = genericConnectError ∧
       (startSession true false).isActive = false ∧
       (startSession true false).service.sessionPromise = none) := by
  decide

/-- C4 (amended): a microphone failure rejects `connect`, so
`startSession` surfaces the generic "could not access microphone or
connect" message, leaves `isActive` false and retains no session
promise — regardless of the handshake oracle. A handshake failure,
however, happens after `connect` already resolved: `isActive` ends up
false via the `onerror` → `onDisconnect` path, but no error message is
surfaced and the session promise reference is retained. -/
theorem startSession_failure_surfacing :
    ((startSession false true).error = genericConnectError ∧
     (startSession false true).isActive = false ∧
     (startSession false true).service.sessionPromise = none) ∧
    ((startSession false false).error = genericConnectError ∧
     (startSession false false).isActive = false ∧
     (startSession false false).service.sessionPromise = none) ∧
    ((startSession true false).isActive = false ∧
     (startSession true false).error = "" ∧
     (startSession true false).service.sessionPromise = some 0) := by
  decide

/-- C7: on a connected instance, `disconnect` attempts every teardown
duty — session-close request, forced stop of all scheduled playback,
capture release, and the close of both contexts — and the attempted
steps do not depend on the outcome oracle: the fallible operations run
asynchronously (`.then`, promise-returning `close()`), so a failing
step cannot keep the later steps from running. -/
theorem disconnect_best_effort (s : GeminiLiveState) (o : TeardownOutcome)
    (h1 : s.sessionPromise.isSome = true) (h2 : s.stream.isSome = true)
    (h3 : s.inputAudioContext.isSome = true) (h4 : s.outputAudioContext.isSome = true) :
    (disconnectTrace s o).map Prod.fst =
      [TeardownStep.closeSession, TeardownStep.stopPlayback, TeardownStep.releaseCapture,
       TeardownStep.releaseContexts, TeardownStep.releaseContexts] := by
  simp [disconnectTrace, h1, h2, h3, h4]

/-- A connected service state used to instantiate the teardown and
reference-clearing theorems. -/
def connectedState : GeminiLiveState :=
  { sessionPromise := some 0
    inputAudioContext := some 0
    outputAudioContext := some 1
    nextStartTime := 2
    sources := [0, 1]
    stream := some [{ stopped := false }]
    processor := some { connected := true }
    inputSource := some { connected := true } }

/-- A closed instance of `disconnect_best_effort` on a connected state
with an outcome oracle in which every fallible step fails. -/
theorem disconnect_best_effort_witness :
    (connectedState.sessionPromise.isSome = true ∧ connectedState.stream.isSome = true ∧
     connectedState.inputAudioContext.isSome = true ∧
     connectedState.outputAudioContext.isSome = true) ∧
    (disconnectTrace connectedState
        { sessionCloseOk := false, inputCtxCloseOk := false, outputCtxCloseOk := false }).map
        Prod.fst =
      [TeardownStep.closeSession, TeardownStep.stopPlayback, TeardownStep.releaseCapture,
       TeardownStep.releaseContexts, TeardownStep.releaseContexts] :=
  ⟨by decide,
   disconnect_best_effort connectedState
     { sessionCloseOk := false, inputCtxCloseOk := false, outputCtxCloseOk := false }
     (by decide) (by decide) (by decide) (by decide)⟩

/-- C8 (counterexample): after `disconnect` on a connected state, the
capture stream, input source and processor fields still hold their
handles — they are stopped or disconnected but never set to null — so
the claim that every internal reference is cleared fails. -/
theorem disconnect_references_counterexample :
    ¬ (connectedState.disconnect.sessionPromise = none ∧
       connectedState.disconnect.inputAudioContext = none ∧
       connectedState.disconnect.outputAudioContext = none ∧
       connectedState.disconnect.stream = none ∧
       connectedState.disconnect.inputSource = none ∧
       connectedState.disconnect.processor = none) := by
  decide

/-- C8 (amended): after `disconnect`, the session promise and both
audio context fields are nulled and the scheduled-source set is
emptied, while the stream, input source and processor fields keep
holding their (stopped, disconnected) handles. -/
theorem disconnect_clears_refs_amended (s : GeminiLiveState) :
    s.disconnect.sessionPromise = none ∧
    s.disconnect.inputAudioContext = none ∧
    s.disconnect.outputAudioContext = none ∧
    s.disconnect.sources = [] ∧
    s.disconnect.stream.isSome = s.stream.isSome ∧
    s.disconnect.inputSource.isSome = s.inputSource.isSome ∧
    s.disconnect.processor.isSome = s.processor.isSome := by
  unfold GeminiLiveState.disconnect
  refine ⟨rfl, rfl, rfl, rfl, ?_, ?_, ?_⟩ <;> simp

/-- C9: `ChatInterface.handleSend` ignores a whitespace-only input
entirely (no message appended, no send), and when `sendMessage` throws,
the user's message stays appended, no model reply is appended, and
`isLoading` is reset to false. -/
theorem handleSend_spec (st : ChatState) (now : Nat) (outcome : SendOutcome) :
    (jsTrim st.inputValue = "" → handleSend st now outcome = st) ∧
    (jsTrim st.inputValue ≠ "" → st.hasService = true → st.isLoading = false →
      outcome = .err →
      (handleSend st now outcome).messages =
        st.messages ++ [{ role := .user, text := st.inputValue, timestamp := now }] ∧
      (handleSend st now outcome).isLoading = false) := by
  constructor
  · intro h
    simp [handleSend, h]
  · intro h1 h2 h3 h4
    subst h4
    simp [handleSend, h1, h2, h3]

/-- A closed instance of `handleSend_spec`: a whitespace-only input is
dropped, and a thrown send keeps the user message with loading reset. -/
theorem handleSend_spec_witness :
    (handleSend { messages := [], inputValue := "  ", isLoading := false, hasService := true }
        0 .err =
      { messages := [], inputValue := "  ", isLoading := false, hasService := true }) ∧
    ((handleSend { messages := [], inputValue := "bonjour", isLoading := false,
                   hasService := true } 1 .err).messages =
        [] ++ [{ role := .user, text := "bonjour", timestamp := 1 }] ∧
     (handleSend { messages := [], inputValue := "bonjour", isLoading := false,
                   hasService := true } 1 .err).isLoading = false) :=
  ⟨(handleSend_spec _ 0 .err).1 (by decide),
   (handleSend_spec _ 1 .err).2 (by decide) rfl rfl rfl⟩

/-- Per-chunk facts of the scheduling trace together with the combined
consecutive-pair relation, proved in one induction over the chunk
sequence. Trace entries are (arrival time, start time, cursor after). -/
theorem scheduleTrace_spec (cur : ℚ) (chunks : List (ℚ × ℚ))
    (hd : ∀ p ∈ chunks, 0 ≤ p.2) :
    (∀ e ∈ scheduleTrace cur chunks, e.1 ≤ e.2.1 ∧ e.2.1 ≤ e.2.2 ∧ cur ≤ e.2.1) ∧
    List.Chain' (fun a b : ℚ × ℚ × ℚ => a.2.2 ≤ b.2.1 ∧ a.2.1 ≤ b.2.1 ∧ a.2.2 ≤ b.2.2)
      (scheduleTrace cur chunks) := by
  induction chunks generalizing cur with
  | nil => simp [scheduleTrace]
  | cons c rest ih =>
    obtain ⟨t, d⟩ := c
    have hd0 : (0 : ℚ) ≤ d := hd (t, d) (by simp)
    have hdr : ∀ p ∈ rest, (0 : ℚ) ≤ p.2 := fun p hp => hd p (by simp [hp])
    obtain ⟨ihAll, ihChain⟩ := ih (max cur t + d) hdr
    have hcur : cur ≤ max cur t + d := le_add_of_le_of_nonneg (le_max_left _ _) hd0
    constructor
    · intro e he
      simp only [scheduleTrace, List.mem_cons] at he
      rcases he with he | he
      · subst he
        exact ⟨le_max_right _ _, le_add_of_nonneg_right hd0, le_max_left _ _⟩
      · have h3 := ihAll e he
        exact ⟨h3.1, h3.2.1, le_trans hcur h3.2.2⟩
    · show List.Chain' _ ((t, max cur t, max cur t + d) :: scheduleTrace (max cur t + d) rest)
      refine List.chain'_cons'.mpr ⟨?_, ihChain⟩
      intro y hy
      obtain ⟨hy1, hy2, hy3⟩ := ihAll y (List.mem_of_mem_head? hy)
      exact ⟨hy3, le_trans (le_add_of_nonneg_right hd0) hy3, le_trans hy3 hy2⟩

/-- C2: for any chunk sequence with non-negative durations, scheduled
in order by `playAudioResponse` from any initial cursor: the start
times are non-decreasing; each start time is at least the previous
start plus the previous duration (the previous entry's cursor); the
`nextStartTime` cursor is non-decreasing; and at the moment each chunk
is scheduled the cursor is at least the output clock's current time. -/
theorem playAudioResponse_monotone (cur : ℚ) (chunks : List (ℚ × ℚ))
    (hd : ∀ p ∈ chunks, 0 ≤ p.2) :
    List.Chain' (· ≤ ·) (scheduleStarts cur chunks) ∧
    List.Chain' (fun a b : ℚ × ℚ × ℚ => a.2.2 ≤ b.2.1) (scheduleTrace cur chunks) ∧
    List.Chain' (fun a b : ℚ × ℚ × ℚ => a.2.2 ≤ b.2.2) (scheduleTrace cur chunks) ∧
    ∀ e ∈ scheduleTrace cur chunks, e.1 ≤ e.2.1 ∧ e.1 ≤ e.2.2 ∧ cur ≤ e.2.2 := by
  obtain ⟨hAll, hChain⟩ := scheduleTrace_spec cur chunks hd
  refine ⟨?_, hChain.imp (fun a b hr => hr.1), hChain.imp (fun a b hr => hr.2.2), ?_⟩
  · unfold scheduleStarts
    rw [List.chain'_map]
    exact hChain.imp (fun a b hr => hr.2.1)
  · intro e he
    obtain ⟨h1, h2, h3⟩ := hAll e he
    exact ⟨h1, le_trans h1 h2, le_trans h3 h2⟩

/-- A closed instance of `playAudioResponse_monotone` on three chunks
of duration 1/2 arriving at clock times 0, 1/4 and 2 with cursor 0. -/
theorem playAudioResponse_monotone_witness :
    (∀ p ∈ [((0 : ℚ), (1 : ℚ)/2), (1/4, 1/2), (2, 1/2)], (0 : ℚ) ≤ p.2) ∧
    (List.Chain' (· ≤ ·) (scheduleStarts 0 [((0 : ℚ), (1 : ℚ)/2), (1/4, 1/2), (2, 1/2)]) ∧
     List.Chain' (fun a b : ℚ × ℚ × ℚ => a.2.2 ≤ b.2.1)
       (scheduleTrace 0 [((0 : ℚ), (1 : ℚ)/2), (1/4, 1/2), (2, 1/2)]) ∧
     List.Chain' (fun a b : ℚ × ℚ × ℚ => a.2.2 ≤ b.2.2)
       (scheduleTrace 0 [((0 : ℚ), (1 : ℚ)/2), (1/4, 1/2), (2, 1/2)]) ∧
     ∀ e ∈ scheduleTrace 0 [((0 : ℚ), (1 : ℚ)/2), (1/4, 1/2), (2, 1/2)],
       e.1 ≤ e.2.1 ∧ e.1 ≤ e.2.2 ∧ (0 : ℚ) ≤ e.2.2) :=
  ⟨by norm_num,
   playAudioResponse_monotone 0 [((0 : ℚ), (1 : ℚ)/2), (1/4, 1/2), (2, 1/2)] (by norm_num)⟩

/-- The encoded sample always lies in the 16-bit signed range. -/
theorem encodeSample_range (x : ℚ) : -32768 ≤ encodeSample x ∧ encodeSample x ≤ 32767 := by
  unfold encodeSample
  exact ⟨le_min (by norm_num) (le_max_left _ _), min_le_left _ _⟩

/-- Packing a 16-bit signed value into a little-endian byte pair and
reassembling it is the identity on the representable range. -/
theorem bytesToInt16_int16ToBytes (i : ℤ) (h1 : -32768 ≤ i) (h2 : i ≤ 32767) :
    bytesToInt16 (int16ToBytes i).1 (int16ToBytes i).2 = i := by
  simp only [int16ToBytes, bytesToInt16]
  split <;> omega

/-- The quantisation error of one encoded sample is at most one step. -/
theorem encodeSample_error (x : ℚ) (h1 : -1 ≤ x) (h2 : x ≤ 1) :
    |(encodeSample x : ℚ) / 32768 - x| ≤ 1 / 32768 := by
  have hc : clampSample x = x := by
    simp [clampSample, max_eq_right h1, min_eq_right h2]
  have hf1 : (-32768 : ℤ) ≤ ⌊x * 32768⌋ := by
    apply Int.le_floor.mpr
    push_cast
    linarith
  have hlo : (⌊x * 32768⌋ : ℚ) ≤ x * 32768 := Int.floor_le _
  have hhi : x * 32768 < (⌊x * 32768⌋ : ℚ) + 1 := Int.lt_floor_add_one _
  have henc : encodeSample x = min 32767 ⌊x * 32768⌋ := by
    unfold encodeSample
    rw [hc, max_eq_right hf1]
  rcases le_or_lt ⌊x * 32768⌋ 32767 with hle | hgt
  · rw [henc, min_eq_right hle, abs_le]
    constructor <;> linarith
  · have hup : (32768 : ℚ) ≤ x * 32768 := by
      calc (32768 : ℚ) ≤ (⌊x * 32768⌋ : ℚ) := by exact_mod_cast hgt
        _ ≤ x * 32768 := hlo
    have hx1 : x = 1 := le_antisymm h2 (by linarith)
    have hmin : min (32767 : ℤ) ⌊x * 32768⌋ = 32767 := min_eq_left (by omega)
    rw [henc, hmin, hx1, abs_le]
    norm_num

/-- C5: encoding a sample buffer with the PCM encoder and decoding the
byte payload as 16-bit little-endian PCM reproduces every sample within
one quantisation step, 1/32768, whenever the inputs lie in [-1, 1]. -/
theorem pcm_roundtrip (xs : List ℚ) (h : ∀ x ∈ xs, -1 ≤ x ∧ x ≤ 1) :
    List.Forall₂ (fun y x => |y - x| ≤ 1 / 32768) (pcmDecodeBytes (pcmEncodeBytes xs)) xs := by
  induction xs with
  | nil => simp [pcmEncodeBytes, pcmDecodeBytes]
  | cons x rest ih =>
    have hx := h x (by simp)
    have hrest : ∀ y ∈ rest, -1 ≤ y ∧ y ≤ 1 := fun y hy => h y (by simp [hy])
    have hbytes : pcmEncodeBytes (x :: rest) =
        (int16ToBytes (encodeSample x)).1 :: (int16ToBytes (encodeSample x)).2 ::
          pcmEncodeBytes rest := by
      simp [pcmEncodeBytes]
    rw [hbytes]
    show List.Forall₂ _
      ((bytesToInt16 (int16ToBytes (encodeSample x)).1 (int16ToBytes (encodeSample x)).2 : ℚ)
          / 32768 :: pcmDecodeBytes (pcmEncodeBytes rest)) (x :: rest)
    refine List.Forall₂.cons ?_ (ih hrest)
    rw [bytesToInt16_int16ToBytes _ (encodeSample_range x).1 (encodeSample_range x).2]
    exact encodeSample_error x hx.1 hx.2

/-- A closed instance of `pcm_roundtrip` on the buffer
[1, -1, 0, 1/2, -3/7]. -/
theorem pcm_roundtrip_witness :
    (∀ x ∈ [(1 : ℚ), -1, 0, 1/2, -3/7], -1 ≤ x ∧ x ≤ 1) ∧
    List.Forall₂ (fun y x => |y - x| ≤ 1 / 32768)
      (pcmDecodeBytes (pcmEncodeBytes [(1 : ℚ), -1, 0, 1/2, -3/7]))
      [(1 : ℚ), -1, 0, 1/2, -3/7] :=
  ⟨by norm_num, pcm_roundtrip [(1 : ℚ), -1, 0, 1/2, -3/7] (by norm_num)⟩

/-- Lifting JavaScript `reduce((a, b) => a + b, seed)` to a running sum. -/
theorem foldl_add_eq_sum (b : Nat) (l : List Nat) : l.foldl (· + ·) b = b + l.sum := by
  induction l generalizing b with
  | nil => simp
  | cons c cs ih => simp [List.foldl_cons, ih, List.sum_cons, Nat.add_assoc]

/-- C6: on a non-empty byte frequency array, the capture callback's
reported volume is exactly the arithmetic mean of the bin magnitudes,
and whenever every bin is byte-valued the reported volume lies in
[0, 255]. -/
theorem volume_mean_bounds (bins : List Nat) (hne : bins ≠ [])
    (hb : ∀ b ∈ bins, b ≤ 255) :
    volumeOf bins = some ((bins.sum : ℚ) / (bins.length : ℚ)) ∧
    ∀ v ∈ volumeOf bins, 0 ≤ v ∧ v ≤ 255 := by
  obtain ⟨b, rest, rfl⟩ := List.exists_cons_of_ne_nil hne
  have hmean : volumeOf (b :: rest) = some (((b :: rest).sum : ℚ) / ((b :: rest).length : ℚ)) := by
    simp [volumeOf, foldl_add_eq_sum]
  refine ⟨hmean, ?_⟩
  intro v hv
  rw [hmean, Option.mem_some_iff] at hv
  subst hv
  have hlen : (0 : ℚ) < ((b :: rest).length : ℚ) := by
    have : 0 < (b :: rest).length := by simp
    exact_mod_cast this
  constructor
  · apply div_nonneg _ (le_of_lt hlen)
    positivity
  · rw [div_le_iff₀ hlen]
    have hsum : (b :: rest).sum ≤ (b :: rest).length * 255 := by
      calc (b :: rest).sum ≤ (b :: rest).length • 255 :=
            List.sum_le_card_nsmul _ 255 hb
        _ = (b :: rest).length * 255 := by simp [smul_eq_mul]
    calc ((b :: rest).sum : ℚ) ≤ (((b :: rest).length * 255 : ℕ) : ℚ) := by exact_mod_cast hsum
      _ = 255 * ((b :: rest).length : ℚ) := by push_cast; ring

/-- A closed instance of `volume_mean_bounds` on the byte frequency
data [0, 255, 128]. -/
theorem volume_mean_bounds_witness :
    volumeOf [0, 255, 128] =
      some (((([0, 255, 128] : List ℕ).sum : ℕ) : ℚ) / (([0, 255, 128] : List ℕ).length : ℚ)) ∧
    ∀ v ∈ volumeOf [0, 255, 128], 0 ≤ v ∧ v ≤ 255 :=
  volume_mean_bounds [0, 255, 128] (by decide) (by decide)

end Partenaire
